import Mathlib

/-!
# GRLeaf — verified shallow embedding of the client logic

Shallow embedding of the GRLeaf frontend (src/frontend/app/editor/[id]/page.tsx,
src/frontend/lib/auth.ts, src/unnamed/part_000) together with the parts of the
collaborative session channel that the repository delegates to an external
WebSocket backend.  Definitions are translated from the source; the relay
server, which is not part of the repository, is modelled from the spec and
marked as such in its doc comments.
-/

namespace GRLeaf

/-! ## Compile job polling

Embeds `handleCompile` of src/frontend/app/editor/[id]/page.tsx lines 427-465
(identical logic in src/unnamed/part_000 lines 73-107): a POST to
/projects/id/compile yields a task id, then a `setInterval` loop polls
/tasks/taskId once per second until the reported status is the string
"success" or "error", at which point the interval is cleared and the
client state is updated. -/

/-- A response of the GET /tasks/taskId status endpoint: a `status` string and
an optional `log` string, as read from `statusRes.data` in `handleCompile`. -/
structure TaskStatus where
  status : String
  log : Option String
deriving DecidableEq

/-- The `compileStatus` React state: `"idle" | "success" | "error"`
(page.tsx line 138). -/
inductive CompileStatus
  | idle
  | success
  | error
deriving DecidableEq

/-- The `activeTab` React state: `"editor" | "errors"` (page.tsx line 140). -/
inductive Tab
  | editor
  | errors
deriving DecidableEq

/-- JavaScript `a || b` on strings where `a` may be absent: an absent or empty
(falsy) left operand yields the right operand.  Used for
`statusRes.data.log || "Compilation failed"` (page.tsx line 455). -/
def jsOrString (o : Option String) (d : String) : String :=
  match o with
  | none => d
  | some s => if s == "" then d else s

/-- The client state touched by the compile flow: `compiling`,
`compileStatus`, `errorLog`, `activeTab` (page.tsx lines 136-140). -/
structure CompileState where
  compiling : Bool
  compileStatus : CompileStatus
  errorLog : String
  activeTab : Tab
deriving DecidableEq

/-- One firing of the `setInterval` callback body of `handleCompile`
(page.tsx lines 440-458) for one polled status: on `"success"` the interval is
cleared, `compiling` becomes false and `compileStatus` becomes success
(the PDF preview refresh does not touch the modelled state); on `"error"` the
interval is cleared, `compiling` becomes false, `compileStatus` becomes error,
`errorLog` is set to the log (falling back to "Compilation failed") and the
error tab is activated; any other status leaves everything unchanged and the
interval keeps running.  The returned Bool is true when `clearInterval` ran. -/
def pollBranch (t : TaskStatus) (st : CompileState) : CompileState × Bool :=
  if t.status == "success" then
    ({ st with compiling := false, compileStatus := CompileStatus.success }, true)
  else if t.status == "error" then
    ({ st with compiling := false, compileStatus := CompileStatus.error,
               errorLog := jsOrString t.log "Compilation failed",
               activeTab := Tab.errors }, true)
  else (st, false)

/-- A status is terminal when the interval callback clears the interval on it:
exactly the strings "success" and "error". -/
def isTerminal (t : TaskStatus) : Bool :=
  t.status == "success" || t.status == "error"

/-- The polling period of the `setInterval` call, in milliseconds
(page.tsx line 458). -/
def pollIntervalMs : Nat := 1000

/-- Whether the polling interval of a single compile request is still live
before the n-th poll, given the stream `s` of statuses the endpoint returns:
the interval is installed at the start and survives a poll exactly when the
polled status is not terminal. -/
def pollActive (s : Nat → TaskStatus) : Nat → Bool
  | 0 => true
  | n + 1 => pollActive s n && !isTerminal (s n)

/-- A status endpoint that always answers "pending": no terminal state ever. -/
def pendingForever : Nat → TaskStatus :=
  fun _ => ⟨"pending", none⟩

/-- C5 as stated: the polling loop of a compile request performs only finitely
many polls, i.e. from some point on the interval is no longer live. -/
def pollsFinite (s : Nat → TaskStatus) : Prop :=
  ∃ N, ∀ n, N ≤ n → pollActive s n = false

/-- A status stream that is "pending" twice and terminal ("success") at
index 2; used to instantiate the bounded-polling theorem. -/
def terminalAtTwo : Nat → TaskStatus :=
  fun n => if n == 2 then ⟨"success", none⟩ else ⟨"pending", none⟩

/-! ### Overlapping compile requests

`handleCompile` installs a fresh `setInterval` for every submitted request and
never clears a previously installed one when a new request is submitted: the
Recompile button is disabled while `compiling` is true, but the Ctrl+S handler
(page.tsx lines 168-178) calls `handleSaveAndCompile` → `handleCompile`
unconditionally, so two polling intervals can be live at once.  The run model
below tracks the set of live intervals, each bound to its task id, and records
every terminal observation together with the task id of the most recently
submitted request at that moment. -/

/-- Look up the status the endpoint returns for task `j` in one tick; a task
the environment says nothing about is still pending. -/
def respLookup (resp : List (Nat × TaskStatus)) (j : Nat) : TaskStatus :=
  match resp.find? (fun p => p.1 == j) with
  | some p => p.2
  | none => ⟨"pending", none⟩

/-- Fire every live interval once (one 1000 ms tick): each interval polls its
own task id and runs the `handleCompile` callback body on the answer; intervals
that saw a terminal status are cleared (removed), and the pair (task id,
status) of each terminal observation is collected. -/
def tickIntervals (resp : List (Nat × TaskStatus)) :
    List Nat → CompileState → List Nat × CompileState × List (Nat × TaskStatus)
  | [], st => ([], st, [])
  | j :: rest, st =>
    let t := respLookup resp j
    let fired := pollBranch t st
    let next := tickIntervals resp rest fired.1
    if fired.2 then (next.1, next.2.1, (j, t) :: next.2.2)
    else (j :: next.1, next.2.1, next.2.2)

/-- State of a run of the compile flow: the client compile state, the task ids
of the live polling intervals (in installation order), the task id of the most
recently submitted compile request, and the log of terminal observations, each
recorded as (observed task id, most recent submission at that time, status). -/
structure PollRun where
  cs : CompileState
  intervals : List Nat
  lastSubmitted : Option Nat
  obs : List (Nat × Option Nat × TaskStatus)
deriving DecidableEq

/-- The non-failing path of `handleCompile` (page.tsx lines 427-440): set
`compiling`, reset `compileStatus` to idle, and install a new polling interval
for the task id returned by the compile POST.  No previously installed
interval is cleared. -/
def submitStep (j : Nat) (r : PollRun) : PollRun :=
  { r with
    cs := { r.cs with compiling := true, compileStatus := CompileStatus.idle },
    intervals := r.intervals ++ [j],
    lastSubmitted := some j }

/-- One timer tick: every live interval fires once against the given endpoint
responses; cleared intervals disappear and each terminal observation is
appended to the log, stamped with the most recent submission. -/
def tickStep (resp : List (Nat × TaskStatus)) (r : PollRun) : PollRun :=
  let fired := tickIntervals resp r.intervals r.cs
  { r with
    cs := fired.2.1,
    intervals := fired.1,
    obs := r.obs ++ fired.2.2.map (fun p => (p.1, r.lastSubmitted, p.2)) }

/-- An event of the compile flow: a compile submission that obtained task id
`j`, or one firing of all live polling intervals with the given endpoint
responses. -/
inductive CompileEv
  | submit (j : Nat)
  | tick (resp : List (Nat × TaskStatus))
deriving DecidableEq

/-- Run a sequence of compile-flow events. -/
def runPoll (evs : List CompileEv) (r : PollRun) : PollRun :=
  evs.foldl (fun s ev =>
    match ev with
    | CompileEv.submit j => submitStep j s
    | CompileEv.tick resp => tickStep resp s) r

/-- The initial client state: not compiling, idle status, empty error log,
editor tab, no intervals, nothing submitted. -/
def initPollRun : PollRun :=
  ⟨⟨false, CompileStatus.idle, "", Tab.editor⟩, [], none, []⟩

/-- The claim of C1: every recorded terminal observation belongs to the most
recently submitted compile request at the moment it is observed. -/
def noStaleCompileObservations (evs : List CompileEv) : Prop :=
  ∀ e ∈ (runPoll evs initPollRun).obs, some e.1 = e.2.1

/-- A run violating C1: request 1 is submitted and stays pending, request 2 is
submitted while the first interval is still live (Ctrl+S bypasses the disabled
Recompile button), then request 1 reports success. -/
def c1FailingTrace : List CompileEv :=
  [CompileEv.submit 1, CompileEv.submit 2,
   CompileEv.tick [(1, ⟨"success", none⟩)]]

/-! ## WebSocket connection lifecycle

Embeds `setupWebSocket` (page.tsx lines 228-254), `switchFile` (lines
267-274) and the `useEffect` cleanup `if (ws) ws.close()` (lines 256-260).
A socket is identified by a fresh numeric id and carries the session key
(project id, file name) encoded in its URL path.  Per the WebSocket API a
socket starts in a connecting state, `close()` moves it to closed from any
state, and the `onopen` handler fires only for a socket that is still
connecting (a socket closed while connecting fires `onclose`, never
`onopen`). -/

/-- Lifecycle state of one browser WebSocket object. -/
inductive SockState
  | connecting
  | opened
  | closed
deriving DecidableEq

/-- One WebSocket object ever created by the editor: its id, its session key
(project id, file name from the `ws://localhost:8000/ws/id/filename` URL) and
its lifecycle state. -/
structure Sock where
  sid : Nat
  key : String × String
  state : SockState
deriving DecidableEq

/-- The connection-related client state: every socket created so far (in
creation order), the id of the socket currently held in the `ws` React state,
the `connected` flag, the project file names and project id (used by
`switchFile` and the socket URL), and the next fresh socket id. -/
structure WsClient where
  sockets : List Sock
  current : Option Nat
  connected : Bool
  files : List String
  projectId : String
  nextId : Nat
deriving DecidableEq

/-- `close()` on the socket with id `i`: it becomes closed whatever state it
was in; closing an already closed socket changes nothing and raises no
error. -/
def closeSock (i : Nat) (l : List Sock) : List Sock :=
  l.map (fun s => if s.sid = i then { s with state := SockState.closed } else s)

/-- `setupWebSocket(filename)` (page.tsx lines 228-254): if a socket is held
in `ws`, it is closed and `connected` is set to false; then a new socket for
the session key (project id, filename) is created (in the connecting state)
and stored in `ws`. -/
def setupWebSocket (filename : String) (st : WsClient) : WsClient :=
  let st1 :=
    match st.current with
    | some i => { st with sockets := closeSock i st.sockets, connected := false }
    | none => st
  { st1 with
    sockets := st1.sockets ++ [⟨st.nextId, (st.projectId, filename), SockState.connecting⟩],
    current := some st.nextId,
    nextId := st.nextId + 1 }

/-- `switchFile(filename)` (page.tsx lines 267-274): if the file exists in the
project, the editor switches to it and `setupWebSocket` reconnects to the new
session key (the local `currentFile` and `code` updates do not touch the
connection state modelled here). -/
def switchFile (filename : String) (st : WsClient) : WsClient :=
  if filename ∈ st.files then setupWebSocket filename st else st

/-- The `socket.onopen` handler of socket `i` (page.tsx lines 236-239): the
socket becomes open and `connected` is set to true.  It can only fire while
the socket is still connecting; for a socket already closed by `close()` the
event never arrives, which the guard encodes. -/
def sockOpenEvt (i : Nat) (st : WsClient) : WsClient :=
  if (st.sockets.find? (fun s => s.sid == i)).any (fun s => s.state == SockState.connecting) then
    { st with
      sockets := st.sockets.map
        (fun s => if s.sid = i then { s with state := SockState.opened } else s),
      connected := true }
  else st

/-- The `socket.onclose` / `socket.onerror` path for socket `i` (page.tsx
lines 240-247): the socket is closed (server drop or handshake failure) and
`connected` is set to false. -/
def sockCloseEvt (i : Nat) (st : WsClient) : WsClient :=
  { st with sockets := closeSock i st.sockets, connected := false }

/-- The `useEffect` cleanup on `ws` (page.tsx lines 256-260):
`if (ws) ws.close()`.  The `ws` state variable itself is not cleared. -/
def wsCleanup (st : WsClient) : WsClient :=
  match st.current with
  | some i => { st with sockets := closeSock i st.sockets }
  | none => st

/-- An event of the connection lifecycle. -/
inductive WsOp
  | setup (filename : String)
  | switch (filename : String)
  | sockOpen (i : Nat)
  | sockClose (i : Nat)
  | cleanup

/-- Apply one lifecycle event. -/
def wsStep (op : WsOp) (st : WsClient) : WsClient :=
  match op with
  | WsOp.setup f => setupWebSocket f st
  | WsOp.switch f => switchFile f st
  | WsOp.sockOpen i => sockOpenEvt i st
  | WsOp.sockClose i => sockCloseEvt i st
  | WsOp.cleanup => wsCleanup st

/-- Run a sequence of lifecycle events. -/
def runWs (ops : List WsOp) (st : WsClient) : WsClient :=
  ops.foldl (fun s op => wsStep op s) st

/-- The editor state before `loadProject` runs: no socket ever created. -/
def initWs (pid : String) (files : List String) : WsClient :=
  ⟨[], none, false, files, pid, 0⟩

/-- How many of the sockets ever created are currently open. -/
def openedCount (st : WsClient) : Nat :=
  (st.sockets.filter (fun s => s.state == SockState.opened)).length

/-- Invariant of the connection lifecycle: every socket id is below the fresh
counter, socket ids are pairwise distinct, and every socket that is not
closed is the one currently held in `ws`. -/
def WsInv (st : WsClient) : Prop :=
  (∀ s ∈ st.sockets, s.sid < st.nextId) ∧
  (st.sockets.map Sock.sid).Nodup ∧
  (∀ s ∈ st.sockets, s.state ≠ SockState.closed → st.current = some s.sid)

/-! ## Collaborative session channel (relay)

The relay server behind `ws://localhost:8000/ws/...` is not part of the
repository; only its clients are.  The definitions below model it from the
spec.  The client side (`socket.onmessage`, page.tsx lines 249-251) is
embedded from the source. -/

/-- Modelled from the spec: the relay server behind the WebSocket endpoint is
missing from the repository.  Section 9 of the spec records the observed
behavior of the relay: it "sends every update back to the originating
connection as well as peers".  `broadcast` therefore delivers the content of
one Send to every participant connection of the session, the sender
included. -/
def broadcast (sender : Nat) (content : String) (conns : List Nat) :
    List (Nat × String) :=
  conns.map (fun p => (p, content))

/-- The client `socket.onmessage` handler (page.tsx lines 249-251, identical
in src/unnamed/part_000 lines 42-45): `setCode(event.data)` — the received
payload replaces the whole document state, whatever it was. -/
def onMessage (payload : String) (_code : String) : String :=
  payload

/-- C2 as stated: no sender ever receives its own message back from the
relay. -/
def noSelfEcho : Prop :=
  ∀ (a : Nat) (c : String) (conns : List Nat),
    a ∈ conns → (a, c) ∉ broadcast a c conns

/-- Modelled from the spec: the session state of the relay server, which is
missing from the repository.  Per section 3 a session is the set of currently
connected participant channels for one session key, and per section 5 each
Send is serialized against the session and handed off to every recipient
outbound queue in order. -/
structure Session where
  participants : List Nat
  queue : Nat → List (Nat × String)

/-- Modelled from the spec: one `Send(handle, content)` on the session
channel appends (sender, content) to the outbound queue of every participant
of the session, in the observed behavior the sender included; participants of
other sessions are untouched. -/
def sendMsg (a : Nat) (c : String) (sess : Session) : Session :=
  { sess with
    queue := fun p =>
      if p ∈ sess.participants then sess.queue p ++ [(a, c)]
      else sess.queue p }

/-- Process a sequence of Send calls, serialized by the session. -/
def runSends (sends : List (Nat × String)) (sess : Session) : Session :=
  sends.foldl (fun s m => sendMsg m.1 m.2 s) sess

/-- A session with the given participants and empty outbound queues. -/
def freshSession (ps : List Nat) : Session :=
  ⟨ps, fun _ => []⟩

/-! ## Editor change handler

Embeds `onChange` (page.tsx lines 395-404, identical in src/unnamed/part_000
lines 57-66): every change updates the local `code` state; the new value is
sent over the WebSocket only when `ws` is non-null and its `readyState` is
`OPEN`. -/

/-- The `readyState` of a browser WebSocket. -/
inductive ReadyState
  | connecting
  | opened
  | closing
  | closed
deriving DecidableEq

/-- The editor state seen by `onChange`: the document `code`, the `ws` React
state (absent, or present with its current readyState), and the ordered list
of payloads transmitted by `ws.send` so far. -/
structure EditorState where
  code : String
  ws : Option ReadyState
  sent : List String
deriving DecidableEq

/-- `onChange(value)` (page.tsx lines 395-404): `setCode(value)` always; then
`if (ws && ws.readyState === WebSocket.OPEN) ws.send(value)` — the entire new
document text is transmitted as a single payload, and only when a socket
exists and is open. -/
def onChange (value : String) (st : EditorState) : EditorState :=
  let st1 := { st with code := value }
  if st1.ws = some ReadyState.opened then { st1 with sent := st1.sent ++ [value] }
  else st1

/-- An event of the editor: a document change, or a connection transition
(socket replaced, opened, closed or dropped) which never sends anything by
itself. -/
inductive EdEv
  | change (v : String)
  | wsSet (r : Option ReadyState)
deriving DecidableEq

/-- Apply one editor event. -/
def edStep (ev : EdEv) (st : EditorState) : EditorState :=
  match ev with
  | EdEv.change v => onChange v st
  | EdEv.wsSet r => { st with ws := r }

/-- Run a sequence of editor events. -/
def runEd (evs : List EdEv) (st : EditorState) : EditorState :=
  evs.foldl (fun s ev => edStep ev s) st

/-! ## Auth service

Embeds `AuthService.getMe` of src/frontend/lib/auth.ts lines 77-96. -/

/-- A user as returned by /auth/me (auth.ts lines 5-9). -/
structure AuthUser where
  id : String
  email : String
  name : String
deriving DecidableEq

/-- Outcome of the `fetch` of /auth/me with a given bearer token: an OK
response carrying a user, a non-OK response, or a thrown error (network
failure or a body that fails to parse). -/
inductive FetchOutcome
  | ok (u : AuthUser)
  | notOk
  | threw
deriving DecidableEq

/-- The observable result of one `getMe()` call: the returned user, the token
left in localStorage afterwards, and whether a network request was issued. -/
structure GetMeResult where
  user : Option AuthUser
  stored : Option String
  requested : Bool
deriving DecidableEq

/-- `authService.getMe()` (auth.ts lines 77-96): `if (!token) return null` —
JavaScript treats both an absent and an empty-string token as falsy, so in
either case it returns null at once, with no request issued and the stored
token (possibly the stored empty string) left untouched; with a non-empty
token it requests /auth/me, returns the user on an OK response, and on a
non-OK response or a thrown error clears the stored token and returns
null. -/
def getMe (stored : Option String) (server : String → FetchOutcome) :
    GetMeResult :=
  match stored with
  | none => ⟨none, none, false⟩
  | some t =>
    if t == "" then ⟨none, some t, false⟩
    else
      match server t with
      | FetchOutcome.ok u => ⟨some u, some t, true⟩
      | FetchOutcome.notOk => ⟨none, none, true⟩
      | FetchOutcome.threw => ⟨none, none, true⟩

/-- A server that rejects every token with a non-OK response. -/
def rejectAll : String → FetchOutcome :=
  fun _ => FetchOutcome.notOk

/-- C10 as stated: after any null-returning `getMe` call the stored token is
absent. -/
def nullClearsToken : Prop :=
  ∀ (stored : Option String) (server : String → FetchOutcome),
    (getMe stored server).user = none → (getMe stored server).stored = none

/-! ## Theorems -/

/-- C1: `handleCompile` never clears the polling interval of a previously
submitted request, and the Ctrl+S handler submits a new compile even while
`compiling` is true; on the failing trace — submit request 1, submit request 2
while request 1 is still pending, then request 1 reports success — the client
applies the stale terminal state of request 1 after request 2 was submitted:
the no-stale-observation property of the claim fails, and the visible
`compileStatus` becomes success although the latest request (2) never
resolved. -/
theorem c1_stale_terminal_observed :
    ¬ noStaleCompileObservations c1FailingTrace ∧
    (runPoll c1FailingTrace initPollRun).cs.compileStatus = CompileStatus.success ∧
    (runPoll c1FailingTrace initPollRun).lastSubmitted = some 2 := by
  refine ⟨?_, by decide, by decide⟩
  intro h
  have := h (1, some 2, ⟨"success", none⟩) (by decide)
  simp at this

/-- C5, counterexample to the claim as stated: against a status endpoint that
never reports a terminal state, the polling loop of `handleCompile` stays live
forever — the number of polls is not finite and the loop retries
unboundedly (the code sets no timeout and no retry bound). -/
theorem c5_unbounded_when_never_terminal : ¬ pollsFinite pendingForever := by
  have hall : ∀ n, pollActive pendingForever n = true := by
    intro n
    induction n with
    | zero => rfl
    | succ k ih => simp [pollActive, ih, isTerminal, pendingForever]
  rintro ⟨N, h⟩
  have hfalse := h N (Nat.le_refl N)
  rw [hall N] at hfalse
  exact Bool.noConfusion hfalse

/-- C5 amended: the polling loop queries at the fixed interval of 1000 ms and
stops immediately at the first terminal status it observes — if the status
stream is first terminal at index k, the interval is live for exactly the
polls 0..k and dead ever after, so the number of polls is finite; boundedness
holds only when the stream eventually reports a terminal state (by
`c5_unbounded_when_never_terminal` it fails otherwise). -/
theorem c5_bounded_polling (s : Nat → TaskStatus) (k : Nat)
    (hk : isTerminal (s k) = true)
    (hmin : ∀ m, m < k → isTerminal (s m) = false) :
    pollIntervalMs = 1000 ∧
    (∀ n, n ≤ k → pollActive s n = true) ∧
    (∀ n, k < n → pollActive s n = false) := by
  have hupto : ∀ n, n ≤ k → pollActive s n = true := by
    intro n hn
    induction n with
    | zero => rfl
    | succ m ih =>
      have hm : m < k := Nat.lt_of_succ_le hn
      have hpm := ih (Nat.le_of_lt hm)
      simp [pollActive, hpm, hmin m hm]
  refine ⟨rfl, hupto, ?_⟩
  intro n hn
  induction n with
  | zero => exact absurd hn (Nat.not_lt_zero k)
  | succ m ih =>
    rcases Nat.lt_succ_iff_lt_or_eq.mp hn with hlt | heq
    · simp [pollActive, ih hlt]
    · subst heq
      simp [pollActive, hk]

/-- Witness for `c5_bounded_polling`: a stream pending at 0 and 1 and
successful at 2 polls exactly at ticks 0, 1, 2 and never again. -/
theorem c5_bounded_polling_witness :
    pollIntervalMs = 1000 ∧
    (∀ n, n ≤ 2 → pollActive terminalAtTwo n = true) ∧
    (∀ n, 2 < n → pollActive terminalAtTwo n = false) :=
  c5_bounded_polling terminalAtTwo 2 (by decide)
    (by intro m hm; interval_cases m <;> decide)

/-- C6: whenever the polling loop observes an error status, the failure is
surfaced and never silently dropped: the interval is cleared, `compiling`
ends, `compileStatus` becomes the terminal error state, the Errors tab is
activated, and `errorLog` is set to a non-empty string — the log carried by
the job when it is a non-empty string, and the fallback message
"Compilation failed" when the job carries no log. -/
theorem c6_error_surfaced (t : TaskStatus) (st : CompileState)
    (h : t.status = "error") :
    (pollBranch t st).2 = true ∧
    (pollBranch t st).1.compiling = false ∧
    (pollBranch t st).1.compileStatus = CompileStatus.error ∧
    (pollBranch t st).1.activeTab = Tab.errors ∧
    (pollBranch t st).1.errorLog ≠ "" ∧
    (∀ l, t.log = some l → l ≠ "" → (pollBranch t st).1.errorLog = l) ∧
    (t.log = none → (pollBranch t st).1.errorLog = "Compilation failed") := by
  have hb : (pollBranch t st) =
      ({ st with compiling := false, compileStatus := CompileStatus.error,
                 errorLog := jsOrString t.log "Compilation failed",
                 activeTab := Tab.errors }, true) := by
    simp [pollBranch, h]
  rw [hb]
  refine ⟨rfl, rfl, rfl, rfl, ?_, ?_, ?_⟩
  · cases hl : t.log with
    | none => simp [jsOrString]
    | some l =>
      by_cases he : l = "" <;> simp [jsOrString, he]
  · intro l hl hne
    simp [jsOrString, hl, hne]
  · intro hl
    simp [jsOrString, hl]

/-- Witness for `c6_error_surfaced` at an error status carrying the log
string "undefined control sequence". -/
theorem c6_error_surfaced_witness :
    (pollBranch ⟨"error", some "undefined control sequence"⟩
        ⟨false, CompileStatus.idle, "", Tab.editor⟩).1.compileStatus =
      CompileStatus.error ∧
    (pollBranch ⟨"error", some "undefined control sequence"⟩
        ⟨false, CompileStatus.idle, "", Tab.editor⟩).1.errorLog =
      "undefined control sequence" := by
  have h := c6_error_surfaced ⟨"error", some "undefined control sequence"⟩
    ⟨false, CompileStatus.idle, "", Tab.editor⟩ rfl
  exact ⟨h.2.2.1, h.2.2.2.2.2.1 "undefined control sequence" rfl (by decide)⟩

/-- C2, counterexample to the claim as stated: the relay as observed does not
suppress self-echo, so a sender that is itself a participant of the session
does receive its own message back — with participant 0 connected to a session
of participants 0 and 1, the broadcast of "hello" by 0 delivers
(0, "hello"). -/
theorem c2_self_echo_counterexample : ¬ noSelfEcho := by
  intro h
  exact h 0 "hello" [0, 1] (by decide) (by decide)

/-- C2 amended: every Send is delivered to every participant of the session,
the sender included (self-echo is not suppressed in the observed behavior),
and the receiving client applies every received payload to its document
state, so the echoed message overwrites the sender editor with the content it
just sent. -/
theorem c2_echo_to_all (a p : Nat) (c code0 : String) (conns : List Nat)
    (hp : p ∈ conns) :
    (p, c) ∈ broadcast a c conns ∧ onMessage c code0 = c :=
  ⟨List.mem_map_of_mem (fun q => (q, c)) hp, rfl⟩

/-- Witness for `c2_echo_to_all`: in a session of participants 0 and 1, the
broadcast of "hello" by sender 0 reaches participant 0 — the sender itself —
and the receiving handler replaces the old document "old" with "hello". -/
theorem c2_echo_to_all_witness :
    (0, "hello") ∈ broadcast 0 "hello" [0, 1] ∧ onMessage "hello" "old" = "hello" :=
  c2_echo_to_all 0 0 "hello" "old" [0, 1] (by decide)

/-- The participant set of the session is unchanged by a sequence of
Sends. -/
theorem runSends_participants (sends : List (Nat × String)) (sess : Session) :
    (runSends sends sess).participants = sess.participants := by
  induction sends generalizing sess with
  | nil => rfl
  | cons m ms ih => simpa [runSends, sendMsg] using ih (sendMsg m.1 m.2 sess)

/-- A connected participant receives every Send of the session, in issue
order, appended to its outbound queue. -/
theorem runSends_queue (sends : List (Nat × String)) (sess : Session) (b : Nat)
    (hb : b ∈ sess.participants) :
    (runSends sends sess).queue b = sess.queue b ++ sends := by
  induction sends generalizing sess with
  | nil => simp [runSends]
  | cons m ms ih =>
    have hb1 : b ∈ (sendMsg m.1 m.2 sess).participants := by
      simpa [sendMsg] using hb
    have := ih (sendMsg m.1 m.2 sess) hb1
    simp only [runSends, List.foldl_cons] at *
    rw [this]
    simp [sendMsg, hb]

/-- C3: per-sender FIFO delivery.  For any serialized sequence of Sends on a
session and any participant b connected to it, the subsequence of b's
delivered messages that originate from sender a is exactly the sequence of
Sends a issued, in the order a issued them (receivers other than b are
covered by instantiating b; no global order across senders is claimed). -/
theorem c3_per_sender_fifo (a b : Nat) (ps : List Nat)
    (sends : List (Nat × String)) (hb : b ∈ ps) :
    ((runSends sends (freshSession ps)).queue b).filter (fun m => m.1 == a) =
      sends.filter (fun m => m.1 == a) := by
  rw [runSends_queue sends (freshSession ps) b hb]
  simp [freshSession]

/-- Witness for `c3_per_sender_fifo`: participants 0, 1, 2; sender 0 issues
"x" then "z" with an interleaved Send "y" from participant 2; participant 1
receives the messages of sender 0 exactly as ["x", "z"], in issue order. -/
theorem c3_per_sender_fifo_witness :
    ((runSends [(0, "x"), (2, "y"), (0, "z")] (freshSession [0, 1, 2])).queue 1).filter
        (fun m => m.1 == 0) = [(0, "x"), (0, "z")] := by
  rw [c3_per_sender_fifo 0 1 [0, 1, 2] [(0, "x"), (2, "y"), (0, "z")] (by decide)]
  decide

/-- C8: on every editor change made while a socket exists and is open, the
client transmits exactly one message whose payload is the entire new document
text — the same value the local document state is set to, not a diff and with
no framing around it. -/
theorem c8_full_content_payload (v : String) (st : EditorState)
    (h : st.ws = some ReadyState.opened) :
    (onChange v st).sent = st.sent ++ [v] ∧ (onChange v st).code = v := by
  simp [onChange, h]

/-- Witness for `c8_full_content_payload`: with an open socket and no message
sent yet, changing the document to "abc" transmits exactly ["abc"] and sets
the document to "abc". -/
theorem c8_full_content_payload_witness :
    (onChange "abc" ⟨"", some ReadyState.opened, []⟩).sent = [] ++ ["abc"] ∧
    (onChange "abc" ⟨"", some ReadyState.opened, []⟩).code = "abc" :=
  c8_full_content_payload "abc" ⟨"", some ReadyState.opened, []⟩ rfl

/-- Two editor states sharing the socket state and the transmission log keep
sharing them under any sequence of events: the transmissions never depend on
the current document content. -/
theorem runEd_sent_congr (evs : List EdEv) (st1 st2 : EditorState)
    (hws : st1.ws = st2.ws) (hsent : st1.sent = st2.sent) :
    (runEd evs st1).ws = (runEd evs st2).ws ∧
    (runEd evs st1).sent = (runEd evs st2).sent := by
  induction evs generalizing st1 st2 with
  | nil => exact ⟨hws, hsent⟩
  | cons ev evs ih =>
    simp only [runEd, List.foldl_cons]
    cases ev with
    | change v =>
      apply ih <;> simp [edStep, onChange, hws, hsent]
    | wsSet r =>
      apply ih <;> simp [edStep, hsent]

/-- Splitting a run at an event. -/
theorem runEd_append (t1 t2 : List EdEv) (st : EditorState) :
    runEd (t1 ++ t2) st = runEd t2 (runEd t1 st) := by
  simp [runEd, List.foldl_append]

/-- C9: every editor change updates the local document state with the new
value; the value is transmitted only when a socket exists and its readyState
is OPEN; and a change made while the connection is absent or not open
contributes nothing to the transmissions of the rest of the run — whatever
reconnections follow, the dropped value is never retransmitted (removing the
offline change leaves the entire transmission log unchanged). -/
theorem c9_offline_changes_dropped (t1 t2 : List EdEv) (st : EditorState)
    (v : String) (h : (runEd t1 st).ws ≠ some ReadyState.opened) :
    (runEd (t1 ++ [EdEv.change v]) st).code = v ∧
    (runEd (t1 ++ [EdEv.change v]) st).sent = (runEd t1 st).sent ∧
    (runEd (t1 ++ EdEv.change v :: t2) st).sent = (runEd (t1 ++ t2) st).sent := by
  have hstep : edStep (EdEv.change v) (runEd t1 st) =
      { runEd t1 st with code := v } := by
    simp [edStep, onChange, h]
  have hone : runEd [EdEv.change v] (runEd t1 st) =
      { runEd t1 st with code := v } := by
    simpa only [runEd, List.foldl_cons, List.foldl_nil] using hstep
  refine ⟨?_, ?_, ?_⟩
  · rw [runEd_append, hone]
  · rw [runEd_append, hone]
  · have hsplit : t1 ++ EdEv.change v :: t2 = (t1 ++ [EdEv.change v]) ++ t2 := by
      simp
    rw [hsplit]
    simp only [runEd_append]
    rw [hone]
    exact (runEd_sent_congr t2 { runEd t1 st with code := v }
      (runEd t1 st) rfl rfl).2

/-- Witness for `c9_offline_changes_dropped`: starting with no socket, the
change to "a" updates the document but transmits nothing, and even after the
socket is set and opened and "b" is typed, the transmission log is the same
as if the offline change had never happened. -/
theorem c9_offline_changes_dropped_witness :
    (runEd ([] ++ [EdEv.change "a"]) ⟨"", none, []⟩).code = "a" ∧
    (runEd ([] ++ [EdEv.change "a"]) ⟨"", none, []⟩).sent =
      (runEd [] ⟨"", none, []⟩).sent ∧
    (runEd ([] ++ EdEv.change "a" ::
        [EdEv.wsSet (some ReadyState.opened), EdEv.change "b"]) ⟨"", none, []⟩).sent =
      (runEd ([] ++ [EdEv.wsSet (some ReadyState.opened), EdEv.change "b"])
        ⟨"", none, []⟩).sent :=
  c9_offline_changes_dropped []
    [EdEv.wsSet (some ReadyState.opened), EdEv.change "b"]
    ⟨"", none, []⟩ "a" (by decide)

/-- C10, counterexample to the claim as stated: `if (!token) return null`
treats a stored empty-string token as falsy, so with "" stored `getMe`
returns null without issuing any request and without clearing the token —
the stored token is not absent after that null-returning call. -/
theorem c10_empty_token_counterexample : ¬ nullClearsToken := by
  intro h
  have := h (some "") rejectAll (by decide)
  simp [getMe] at this

/-- C10 amended: `getMe` returns null without issuing any network request
when the stored token is absent or the empty string (both falsy for the
`if (!token)` guard), leaving the stored token untouched; it issues the
request exactly when a non-empty token is stored; it returns a non-null user
only when a stored non-empty token was accepted by the server; and after any
null-returning call in which the request was actually issued — the server
rejected the token or the request threw — the stored token is absent. -/
theorem c10_getMe_contract (stored : Option String)
    (server : String → FetchOutcome) :
    ((getMe none server).requested = false ∧ (getMe none server).user = none ∧
      (getMe none server).stored = none) ∧
    ((getMe (some "") server).requested = false ∧
      (getMe (some "") server).user = none ∧
      (getMe (some "") server).stored = some "") ∧
    (∀ t, stored = some t → t ≠ "" → (getMe stored server).requested = true) ∧
    (∀ u, (getMe stored server).user = some u →
      ∃ t, stored = some t ∧ t ≠ "" ∧ server t = FetchOutcome.ok u) ∧
    ((getMe stored server).user = none → (getMe stored server).requested = true →
      (getMe stored server).stored = none) := by
  refine ⟨⟨rfl, rfl, rfl⟩, ⟨by simp [getMe], by simp [getMe], by simp [getMe]⟩,
    ?_, ?_, ?_⟩
  · intro t ht hne
    subst ht
    cases hs : server t <;> simp [getMe, hne, hs]
  · intro u hu
    cases stored with
    | none => simp [getMe] at hu
    | some t =>
      by_cases hne : t = ""
      · subst hne
        simp [getMe] at hu
      · cases hs : server t with
        | ok u' =>
          refine ⟨t, rfl, hne, ?_⟩
          simp [getMe, hne, hs] at hu
          rw [hs, hu]
        | notOk => simp [getMe, hne, hs] at hu
        | threw => simp [getMe, hne, hs] at hu
  · intro hnone hreq
    cases stored with
    | none => rfl
    | some t =>
      by_cases hne : t = ""
      · subst hne
        simp [getMe] at hreq
      · cases hs : server t with
        | ok u' => simp [getMe, hne, hs] at hnone
        | notOk => simp [getMe, hne, hs]
        | threw => simp [getMe, hne, hs]

/-- Witness for `c10_getMe_contract`: with the stored non-empty token "tok"
and a server that rejects every token, `getMe` issues the request, returns
null and clears the stored token. -/
theorem c10_getMe_contract_witness :
    (getMe (some "tok") rejectAll).user = none ∧
    (getMe (some "tok") rejectAll).stored = none :=
  ⟨by decide, (c10_getMe_contract (some "tok") rejectAll).2.2.2.2
    (by decide) (by decide)⟩

/-- `close()` does not change socket ids. -/
theorem closeSock_map_sid (i : Nat) (l : List Sock) :
    (closeSock i l).map Sock.sid = l.map Sock.sid := by
  induction l with
  | nil => rfl
  | cons s t ih =>
    by_cases h : s.sid = i <;> simp [closeSock, h] at ih ⊢ <;> exact ih

/-- Mapping a sid-preserving update over the socket list does not change the
socket ids. -/
theorem map_sid_update (l : List Sock) (g : Sock → Sock)
    (hg : ∀ s, (g s).sid = s.sid) :
    (l.map g).map Sock.sid = l.map Sock.sid := by
  induction l with
  | nil => rfl
  | cons s t ih => simp [hg, ih]

/-- A socket of the list after `close()` on id `i` comes from a socket of the
original list with the same id, and if it is still not closed it is that very
socket, whose id is not `i`. -/
theorem mem_closeSock {i : Nat} {l : List Sock} {s' : Sock}
    (h : s' ∈ closeSock i l) :
    ∃ s ∈ l, s'.sid = s.sid ∧
      (s'.state ≠ SockState.closed → s' = s ∧ s.sid ≠ i) := by
  obtain ⟨s, hs, hmap⟩ := List.mem_map.mp h
  refine ⟨s, hs, ?_⟩
  by_cases hsid : s.sid = i
  · rw [if_pos hsid] at hmap
    subst hmap
    exact ⟨rfl, fun hne => absurd rfl hne⟩
  · rw [if_neg hsid] at hmap
    subst hmap
    exact ⟨rfl, fun _ => ⟨rfl, hsid⟩⟩

/-- A list of pairwise distinct naturals whose members are all equal to `c`
has at most one member. -/
theorem length_le_one_of_nodup_allEq (l : List Nat) (c : Nat)
    (hnd : l.Nodup) (hall : ∀ x ∈ l, x = c) : l.length ≤ 1 := by
  match l with
  | [] => simp
  | [x] => simp
  | x :: y :: t =>
    exfalso
    have hx : x = c := hall x (by simp)
    have hy : y = c := hall y (by simp)
    have : x ∉ y :: t := (List.nodup_cons.mp hnd).1
    exact this (by rw [hx, ← hy]; exact List.mem_cons_self y t)

/-- `setupWebSocket` preserves the connection invariant: the previously held
socket is closed before the fresh socket (with a fresh id) is created and
becomes the held one. -/
theorem setupWebSocket_inv (f : String) (st : WsClient) (h : WsInv st) :
    WsInv (setupWebSocket f st) := by
  obtain ⟨hbound, hnd, hlive⟩ := h
  cases hc : st.current with
  | none =>
    refine ⟨?_, ?_, ?_⟩
    · intro s hs
      simp only [setupWebSocket, hc] at hs
      rcases List.mem_append.mp hs with hold | hnew
      · exact Nat.lt_succ_of_lt (hbound s hold)
      · simp at hnew
        rw [hnew]
        exact Nat.lt_succ_self _
    · simp only [setupWebSocket, hc, List.map_append, List.map_cons, List.map_nil]
      rw [List.nodup_append]
      refine ⟨hnd, List.nodup_singleton _, ?_⟩
      intro x hx hx1
      simp at hx1
      obtain ⟨s, hs, rfl⟩ := List.mem_map.mp hx
      exact absurd hx1 (Nat.ne_of_lt (hbound s hs))
    · intro s hs hlive'
      simp only [setupWebSocket, hc] at hs ⊢
      rcases List.mem_append.mp hs with hold | hnew
      · have := hlive s hold hlive'
        rw [hc] at this
        exact Option.noConfusion this
      · simp at hnew
        rw [hnew]
  | some i =>
    refine ⟨?_, ?_, ?_⟩
    · intro s hs
      simp only [setupWebSocket, hc] at hs
      rcases List.mem_append.mp hs with hold | hnew
      · obtain ⟨s0, hs0, hsid, -⟩ := mem_closeSock hold
        rw [hsid]
        exact Nat.lt_succ_of_lt (hbound s0 hs0)
      · simp at hnew
        rw [hnew]
        exact Nat.lt_succ_self _
    · simp only [setupWebSocket, hc, List.map_append, List.map_cons, List.map_nil]
      rw [closeSock_map_sid, List.nodup_append]
      refine ⟨hnd, List.nodup_singleton _, ?_⟩
      intro x hx hx1
      simp at hx1
      obtain ⟨s, hs, rfl⟩ := List.mem_map.mp hx
      exact absurd hx1 (Nat.ne_of_lt (hbound s hs))
    · intro s hs hlive'
      simp only [setupWebSocket, hc] at hs ⊢
      rcases List.mem_append.mp hs with hold | hnew
      · obtain ⟨s0, hs0, -, hne⟩ := mem_closeSock hold
        obtain ⟨rfl, hnei⟩ := hne hlive'
        have := hlive s hs0 hlive'
        rw [hc] at this
        exact absurd (Option.some.inj this).symm hnei
      · simp at hnew
        rw [hnew]

/-- Every lifecycle event preserves the connection invariant. -/
theorem wsStep_inv (op : WsOp) (st : WsClient) (h : WsInv st) :
    WsInv (wsStep op st) := by
  obtain ⟨hbound, hnd, hlive⟩ := h
  cases op with
  | setup f => exact setupWebSocket_inv f st ⟨hbound, hnd, hlive⟩
  | switch f =>
    simp only [wsStep, switchFile]
    split
    · exact setupWebSocket_inv f st ⟨hbound, hnd, hlive⟩
    · exact ⟨hbound, hnd, hlive⟩
  | sockOpen i =>
    simp only [wsStep, sockOpenEvt]
    split
    case isTrue hcond =>
      have hfound : ∃ s0 ∈ st.sockets, s0.sid = i ∧
          s0.state = SockState.connecting := by
        cases hf : st.sockets.find? (fun s => s.sid == i) with
        | none => rw [hf] at hcond; simp at hcond
        | some s0 =>
          rw [hf] at hcond
          simp at hcond
          have hmem := List.mem_of_find?_eq_some hf
          have hsid := List.find?_some hf
          simp at hsid
          exact ⟨s0, hmem, hsid, hcond⟩
      obtain ⟨s0, hs0mem, hs0sid, hs0conn⟩ := hfound
      have hcur : st.current = some i := by
        have := hlive s0 hs0mem (by rw [hs0conn]; intro hcl; exact SockState.noConfusion hcl)
        rw [hs0sid] at this
        exact this
      refine ⟨?_, ?_, ?_⟩
      · intro s hs
        obtain ⟨s1, hs1, hmap⟩ := List.mem_map.mp hs
        have : s.sid = s1.sid := by
          rw [← hmap]
          by_cases h1 : s1.sid = i <;> simp [h1]
        rw [this]
        exact hbound s1 hs1
      · rw [map_sid_update _ _ (by intro s; by_cases h1 : s.sid = i <;> simp [h1])]
        exact hnd
      · intro s hs hlive'
        obtain ⟨s1, hs1, hmap⟩ := List.mem_map.mp hs
        by_cases h1 : s1.sid = i
        · rw [if_pos h1] at hmap
          rw [← hmap]
          rw [hcur, h1]
        · rw [if_neg h1] at hmap
          subst hmap
          exact hlive s1 hs1 hlive'
    case isFalse => exact ⟨hbound, hnd, hlive⟩
  | sockClose i =>
    refine ⟨?_, ?_, ?_⟩
    · intro s hs
      simp only [wsStep, sockCloseEvt] at hs
      obtain ⟨s0, hs0, hsid, -⟩ := mem_closeSock hs
      rw [hsid]
      exact hbound s0 hs0
    · simp only [wsStep, sockCloseEvt]
      rw [closeSock_map_sid]
      exact hnd
    · intro s hs hlive'
      simp only [wsStep, sockCloseEvt] at hs ⊢
      obtain ⟨s0, hs0, -, hne⟩ := mem_closeSock hs
      obtain ⟨rfl, -⟩ := hne hlive'
      exact hlive s hs0 hlive'
  | cleanup =>
    simp only [wsStep, wsCleanup]
    cases hc : st.current with
    | none => exact ⟨hbound, hnd, hlive⟩
    | some i =>
      refine ⟨?_, ?_, ?_⟩
      · intro s hs
        simp only at hs
        obtain ⟨s0, hs0, hsid, -⟩ := mem_closeSock hs
        rw [hsid]
        exact hbound s0 hs0
      · simp only
        rw [closeSock_map_sid]
        exact hnd
      · intro s hs hlive'
        simp only at hs ⊢
        obtain ⟨s0, hs0, -, hne⟩ := mem_closeSock hs
        obtain ⟨rfl, -⟩ := hne hlive'
        rw [← hc]
        exact hlive s hs0 hlive'

/-- Any run of lifecycle events preserves the connection invariant. -/
theorem runWs_inv (ops : List WsOp) (st : WsClient) (h : WsInv st) :
    WsInv (runWs ops st) := by
  induction ops generalizing st with
  | nil => exact h
  | cons op ops ih =>
    simp only [runWs, List.foldl_cons]
    exact ih (wsStep op st) (wsStep_inv op st h)

/-- Under the connection invariant at most one socket is open. -/
theorem opened_le_one_of_inv (st : WsClient) (h : WsInv st) :
    openedCount st ≤ 1 := by
  obtain ⟨-, hnd, hlive⟩ := h
  unfold openedCount
  have hsub : (st.sockets.filter (fun s => s.state == SockState.opened)).Sublist
      st.sockets := List.filter_sublist _
  have hndf : ((st.sockets.filter
      (fun s => s.state == SockState.opened)).map Sock.sid).Nodup :=
    hnd.sublist (hsub.map _)
  have hstate : ∀ s ∈ st.sockets.filter (fun s => s.state == SockState.opened),
      s ∈ st.sockets ∧ s.state = SockState.opened := by
    intro s hs
    have := List.mem_filter.mp hs
    refine ⟨this.1, ?_⟩
    have := this.2
    simpa using this
  cases hc : st.current with
  | none =>
    cases hf : st.sockets.filter (fun s => s.state == SockState.opened) with
    | nil => simp [hf]
    | cons s t =>
      exfalso
      have hs := hstate s (by rw [hf]; exact List.mem_cons_self s t)
      have := hlive s hs.1 (by rw [hs.2]; intro hcl; exact SockState.noConfusion hcl)
      rw [hc] at this
      exact Option.noConfusion this
  | some c =>
    have hall : ∀ x ∈ (st.sockets.filter
        (fun s => s.state == SockState.opened)).map Sock.sid, x = c := by
      intro x hx
      obtain ⟨s, hs, rfl⟩ := List.mem_map.mp hx
      have hmem := hstate s hs
      have := hlive s hmem.1 (by rw [hmem.2]; intro hcl; exact SockState.noConfusion hcl)
      rw [hc] at this
      exact (Option.some.inj this).symm
    have := length_le_one_of_nodup_allEq _ c hndf hall
    simpa using this

/-- C4: each participant channel belongs to at most one session at any
instant — `setupWebSocket` closes the previously held socket before it
creates the connection for the new session key, so from the initial editor
state no reachable sequence of setups, file switches, socket events and
cleanups ever leaves the client with two open session connections. -/
theorem c4_at_most_one_open_conn (pid : String) (files : List String)
    (ops : List WsOp) :
    openedCount (runWs ops (initWs pid files)) ≤ 1 := by
  apply opened_le_one_of_inv
  apply runWs_inv
  refine ⟨?_, ?_, ?_⟩ <;> simp [initWs]

/-- `close()` on an already closed socket changes nothing. -/
theorem closeSock_idem (i : Nat) (l : List Sock) :
    closeSock i (closeSock i l) = closeSock i l := by
  induction l with
  | nil => rfl
  | cons s t ih =>
    by_cases h : s.sid = i <;> simp [closeSock, h] at ih ⊢ <;> exact ih

/-- C7: disconnecting is idempotent.  The cleanup `if (ws) ws.close()` is a
total function — running it on an already disconnected state raises no error —
and running it twice produces exactly the state produced by running it once,
for every client state. -/
theorem c7_disconnect_idempotent (st : WsClient) :
    wsCleanup (wsCleanup st) = wsCleanup st := by
  cases hc : st.current with
  | none => simp [wsCleanup, hc]
  | some i => simp [wsCleanup, hc, closeSock_idem]

end GRLeaf
